import Mathlib

/-!
Verification of the Tactyl haptic relay server (`src/server.js`).

The server keeps one process-local `Map` (`hapticSessions`) from session id
strings to session records, and exposes three handlers:

* `POST /api/haptic/:sessionId` — validates `sessionId`/`ahap`, stores a record
  with `created = now` and `expires = now + 24h`, then runs
  `cleanupExpiredSessions()` opportunistically;
* `GET /api/haptic/:sessionId` — `hapticSessions.get`; 404 when absent,
  otherwise the record serialized (no expiry check in the handler);
* `GET /haptic/:sessionId` — renders an HTML share page that evaluates
  `session.ahap.Pattern.length` inside the template.

`cleanupExpiredSessions()` deletes every entry with
`new Date(value.expires).getTime() < Date.now()`.

Modelling conventions:
* Timestamps are `Nat` milliseconds.  The code stores `created`/`expires` as
  ISO-8601 strings via `toISOString()` and parses them back with
  `new Date(...).getTime()`; this round-trip is exact at millisecond precision,
  so the string representation is elided.  The two clock reads inside one POST
  handler invocation (`new Date()` and `Date.now()`) are modelled as the same
  instant `now`, the handler's invocation time.
* Request-body values (`ahap`, `mediaUrl`) are modelled as JSON-ish JavaScript
  values `JsVal`, including `undefined` for absent fields, so that JavaScript
  truthiness (`!ahap`) and property access (`session.ahap.Pattern.length`,
  which throws a `TypeError` on `undefined`/`null` bases) can be stated.
* The `Map` is an association list; `Map.set` replaces the value in place
  when the key exists and appends otherwise, `Map.get` finds the entry by key,
  and the delete-while-iterating loop of `cleanupExpiredSessions` keeps exactly
  the entries the condition does not delete, i.e. a filter.
-/

namespace TactylServer

/-- A JavaScript/JSON value as it appears in a parsed request body.
`undef` stands for JavaScript `undefined` (an absent field). -/
inductive JsVal : Type
  | undef : JsVal
  | null : JsVal
  | boolean (b : Bool) : JsVal
  | num (n : Int) : JsVal
  | str (s : String) : JsVal
  | arr (elems : List JsVal) : JsVal
  | obj (fields : List (String × JsVal)) : JsVal

/-- JavaScript truthiness: `undefined`, `null`, `false`, `0` and `""` are
falsy; every object and array is truthy.  This is the `!x` test of
`if (!sessionId || !ahap)` (negated). -/
def truthy : JsVal → Bool
  | .undef => false
  | .null => false
  | .boolean b => b
  | .num n => n != 0
  | .str s => s != ""
  | .arr _ => true
  | .obj _ => true

/-- JavaScript property access on `undefined` or `null` throws a `TypeError`. -/
def propAccessThrows : JsVal → Bool
  | .undef => true
  | .null => true
  | _ => false

/-- JavaScript property access `base[p]`, as used by the share-page template
(`session.ahap.Pattern` and `.length`): throws on an `undefined`/`null` base;
strings and arrays expose `length`; object fields are looked up by name;
any other access yields `undefined`.  (Numeric string/array indexing is not
modelled; the server only reads the properties `Pattern` and `length`.) -/
def getProp : JsVal → String → Except Unit JsVal
  | .undef, _ => .error ()
  | .null, _ => .error ()
  | .boolean _, _ => .ok .undef
  | .num _, _ => .ok .undef
  | .str s, p => if p = "length" then .ok (.num (s.length : Int)) else .ok .undef
  | .arr xs, p => if p = "length" then .ok (.num (xs.length : Int)) else .ok .undef
  | .obj fs, p => .ok ((List.lookup p fs).getD .undef)

/-- Whether a JavaScript value is an array (`Array.isArray`). -/
def jsIsArray : JsVal → Bool
  | .arr _ => true
  | _ => false

/-- The record stored under a session id by the POST handler:
`{ ahap, mediaUrl, created: new Date().toISOString(),
   expires: new Date(Date.now() + 24*60*60*1000).toISOString() }`,
with the two timestamps as `Nat` milliseconds. -/
structure Session where
  ahap : JsVal
  mediaUrl : JsVal
  created : Nat
  expires : Nat

/-- The `hapticSessions` map: an insertion-ordered association list from
session id to record, with unique keys maintained by `mapSet`. -/
abbrev Store : Type := List (String × Session)

/-- `hapticSessions.get(key)`: the first (in a well-formed map, only) entry
with the given key. -/
def mapGet : Store → String → Option Session
  | [], _ => none
  | (k, v) :: rest, key => if k = key then some v else mapGet rest key

/-- `hapticSessions.set(key, v)`: replaces the value in place when the key is
present, otherwise appends the new entry. -/
def mapSet : Store → String → Session → Store
  | [], key, v => [(key, v)]
  | (k, w) :: rest, key, v =>
      if k = key then (key, v) :: rest else (k, w) :: mapSet rest key v

/-- The 24-hour TTL in milliseconds: `24 * 60 * 60 * 1000`. -/
def ttlMs : Nat := 24 * 60 * 60 * 1000

/-- `cleanupExpiredSessions()` at time `now`: deletes every entry with
`new Date(value.expires).getTime() < now`; iterate-and-delete over a JS `Map`
keeps exactly the non-deleted entries in order. -/
def cleanupExpiredSessions (now : Nat) (store : Store) : Store :=
  store.filter (fun e => ! decide (e.2.expires < now))

/-- Outcome of `POST /api/haptic/:sessionId`. -/
inductive PostResult : Type
  /-- HTTP 400 `{ error: 'Missing required data' }`. -/
  | missingData : PostResult
  /-- HTTP 200 `{ success: true, sessionId, qrData, shareUrl }`; `qrData` and
  `shareUrl` are strings derived from `sessionId` alone (plus request host). -/
  | success (sessionId : String) : PostResult

/-- The POST handler: reject when `!sessionId || !ahap` (the route parameter is
a string, so `!sessionId` means the empty string), otherwise `set` the record
with `created = now`, `expires = now + 24h`, then run
`cleanupExpiredSessions()` before responding. -/
def postHaptic (now : Nat) (sessionId : String) (ahap mediaUrl : JsVal)
    (store : Store) : PostResult × Store :=
  if sessionId = "" ∨ truthy ahap = false then
    (.missingData, store)
  else
    let record : Session := ⟨ahap, mediaUrl, now, now + ttlMs⟩
    (.success sessionId, cleanupExpiredSessions now (mapSet store sessionId record))

/-- Outcome of `GET /api/haptic/:sessionId`. -/
inductive LookupResult : Type
  /-- HTTP 404 `{ error: 'Session not found or expired' }`. -/
  | notFound : LookupResult
  /-- HTTP 200: the stored record serialized as JSON. -/
  | found (s : Session) : LookupResult

/-- The GET handler: `hapticSessions.get(sessionId)`; 404 iff the map has no
entry (a stored record object is always truthy, so `if (!session)` is exactly
the absence test).  The handler never reads the clock. -/
def getHaptic (store : Store) (sessionId : String) : LookupResult :=
  match mapGet store sessionId with
  | none => .notFound
  | some s => .found s

/-- Outcome of `GET /haptic/:sessionId` (the share page). -/
inductive RenderResult : Type
  /-- HTTP 404 plain text. -/
  | notFound : RenderResult
  /-- A `TypeError` thrown while evaluating the template
  (`session.ahap.Pattern.length` on an `undefined`/`null` base), surfaced by
  Express as an error response instead of the page. -/
  | thrown : RenderResult
  /-- The HTML document; `events` is the value interpolated for
  `session.ahap.Pattern.length` and `created` the record's creation time. -/
  | page (events : JsVal) (created : Nat) : RenderResult

/-- Evaluation of the template literal for a found session: the interpolation
`session.ahap.Pattern.length` either throws (nullish base at one of the two
property accesses) or yields the value shown in the Events line. -/
def evalTemplate (s : Session) : RenderResult :=
  match getProp s.ahap "Pattern" with
  | .error _ => .thrown
  | .ok p =>
    match getProp p "length" with
    | .error _ => .thrown
    | .ok len => .page len s.created

/-- The share-page handler: look the session up; on 404 send plain text;
otherwise evaluate `session.ahap.Pattern.length` inside the template and
send the page. -/
def renderShare (store : Store) (sessionId : String) : RenderResult :=
  match mapGet store sessionId with
  | none => .notFound
  | some s => evalTemplate s

/-- The store-mutating events of the server: a POST request and a sweep
(triggered hourly by `setInterval`; the sweep a POST performs is already part
of `postHaptic`).  GET handlers never mutate the store. -/
inductive Op : Type
  | post (now : Nat) (sessionId : String) (ahap mediaUrl : JsVal) : Op
  | sweep (now : Nat) : Op

/-- Apply one store-mutating event. -/
def applyOp (store : Store) : Op → Store
  | .post now sid ahap mediaUrl => (postHaptic now sid ahap mediaUrl store).2
  | .sweep now => cleanupExpiredSessions now store

/-- Apply a sequence of store-mutating events in order. -/
def applyOps (store : Store) (ops : List Op) : Store :=
  ops.foldl applyOp store

/-- Whether an event is a POST aimed at the given key. -/
def insertsTo : Op → String → Bool
  | .post _ sid _ _, key => sid == key
  | .sweep _, _ => false

/-! ### Helper lemmas about the map operations -/

theorem mapGet_mapSet_self (store : Store) (key : String) (v : Session) :
    mapGet (mapSet store key v) key = some v := by
  induction store with
  | nil => simp [mapSet, mapGet]
  | cons e rest ih =>
    obtain ⟨k, w⟩ := e
    by_cases h : k = key
    · simp [mapSet, h, mapGet]
    · simp [mapSet, h, mapGet, ih]

theorem mapGet_mapSet_ne (store : Store) (key j : String) (v : Session)
    (h : key ≠ j) : mapGet (mapSet store key v) j = mapGet store j := by
  induction store with
  | nil => simp [mapSet, mapGet, h]
  | cons e rest ih =>
    obtain ⟨k, w⟩ := e
    by_cases hk : k = key
    · subst hk
      simp [mapSet, mapGet, h]
    · simp [mapSet, hk, mapGet, ih]

theorem mapGet_cleanup_none (now : Nat) (store : Store) (j : String)
    (h : mapGet store j = none) : mapGet (cleanupExpiredSessions now store) j = none := by
  induction store with
  | nil => exact h
  | cons e rest ih =>
    obtain ⟨k, w⟩ := e
    by_cases hk : k = j
    · simp [mapGet, hk] at h
    · simp only [mapGet, if_neg hk] at h
      by_cases hexp : w.expires < now
      · simpa [cleanupExpiredSessions, List.filter_cons, hexp] using ih h
      · simpa [cleanupExpiredSessions, List.filter_cons, hexp, mapGet, hk] using ih h

theorem mapGet_cleanup_keep (now : Nat) (store : Store) (j : String) (r : Session)
    (h : mapGet store j = some r) (hkeep : ¬ r.expires < now) :
    mapGet (cleanupExpiredSessions now store) j = some r := by
  induction store with
  | nil => simp [mapGet] at h
  | cons e rest ih =>
    obtain ⟨k, w⟩ := e
    by_cases hk : k = j
    · simp only [mapGet, if_pos hk] at h
      obtain rfl : w = r := Option.some.inj h
      simp [cleanupExpiredSessions, List.filter_cons, hkeep, mapGet, hk]
    · simp only [mapGet, if_neg hk] at h
      by_cases hexp : w.expires < now
      · simpa [cleanupExpiredSessions, List.filter_cons, hexp] using ih h
      · simpa [cleanupExpiredSessions, List.filter_cons, hexp, mapGet, hk] using ih h

theorem mem_cleanup_iff (now : Nat) (store : Store) (e : String × Session) :
    e ∈ cleanupExpiredSessions now store ↔ e ∈ store ∧ ¬ e.2.expires < now := by
  simp [cleanupExpiredSessions, List.mem_filter]

theorem cleanup_subset (now : Nat) (store : Store) (e : String × Session)
    (h : e ∈ cleanupExpiredSessions now store) : e ∈ store :=
  ((mem_cleanup_iff now store e).1 h).1

theorem getHaptic_notFound_iff (store : Store) (sid : String) :
    getHaptic store sid = .notFound ↔ mapGet store sid = none := by
  unfold getHaptic
  cases mapGet store sid <;> simp

theorem lookup_after_post (now : Nat) (sid : String) (ahap mediaUrl : JsVal)
    (store : Store) (hsid : sid ≠ "") (ha : truthy ahap = true) :
    getHaptic (postHaptic now sid ahap mediaUrl store).2 sid =
      .found ⟨ahap, mediaUrl, now, now + ttlMs⟩ := by
  have hcond : ¬ (sid = "" ∨ truthy ahap = false) := by simp [hsid, ha]
  have hkeep : ¬ (now + ttlMs < now) := by omega
  have h1 := mapGet_mapSet_self store sid ⟨ahap, mediaUrl, now, now + ttlMs⟩
  have h2 := mapGet_cleanup_keep now (mapSet store sid ⟨ahap, mediaUrl, now, now + ttlMs⟩)
    sid ⟨ahap, mediaUrl, now, now + ttlMs⟩ h1 hkeep
  simp [postHaptic, hcond, getHaptic, h2]

theorem getProp_error_iff (v : JsVal) (p : String) :
    getProp v p = .error () ↔ propAccessThrows v = true := by
  cases v <;> simp [getProp, propAccessThrows] <;> split <;> simp

theorem propAccessThrows_iff (v : JsVal) :
    propAccessThrows v = true ↔ v = .undef ∨ v = .null := by
  cases v <;> simp [propAccessThrows]

theorem applyOp_preserves_absent (store : Store) (sid : String) (op : Op)
    (habs : mapGet store sid = none) (hni : insertsTo op sid = false) :
    mapGet (applyOp store op) sid = none := by
  cases op with
  | post now k a m =>
    have hk : k ≠ sid := by
      intro h
      subst h
      simp [insertsTo] at hni
    by_cases hc : k = "" ∨ truthy a = false
    · simpa [applyOp, postHaptic, hc] using habs
    · have h1 : mapGet (mapSet store k ⟨a, m, now, now + ttlMs⟩) sid = none := by
        rw [mapGet_mapSet_ne store k sid _ hk]
        exact habs
      simpa [applyOp, postHaptic, hc] using
        mapGet_cleanup_none now (mapSet store k ⟨a, m, now, now + ttlMs⟩) sid h1
  | sweep now => exact mapGet_cleanup_none now store sid habs

theorem mapGet_applyOps_none (sid : String) (ops : List Op) :
    ∀ store : Store, mapGet store sid = none →
      (∀ op ∈ ops, insertsTo op sid = false) →
      mapGet (applyOps store ops) sid = none := by
  induction ops with
  | nil =>
    intro store h _
    exact h
  | cons op rest ih =>
    intro store habs hni
    exact ih (applyOp store op)
      (applyOp_preserves_absent store sid op habs (hni op (List.mem_cons_self op rest)))
      (fun o ho => hni o (List.mem_cons_of_mem op ho))

/-! ### Concrete values used as witnesses -/

/-- A well-formed payload: an object with a three-element `Pattern` array. -/
def samplePayload : JsVal := .obj [("Pattern", .arr [.num 1, .num 2, .num 3])]

/-- A second, distinguishable well-formed payload. -/
def otherPayload : JsVal := .obj [("Pattern", .arr [.num 4])]

/-- A record whose 24-hour TTL has elapsed by time `ttlMs` (created at 0). -/
def staleSession : Session := ⟨samplePayload, .undef, 0, ttlMs⟩

/-- A record whose expiry time is exactly 5 (used at `now = 5`). -/
def edgeSession : Session := ⟨samplePayload, .undef, 0, 5⟩

/-- A record whose payload's `Pattern` member is the string `"ab"`, not an
array; strings do have a `length` property. -/
def strPatternSession : Session := ⟨.obj [("Pattern", .str "ab")], .undef, 0, ttlMs⟩

/-- A record whose payload is the (truthy) number `1`, so `ahap.Pattern` is
`undefined` and `.length` on it throws. -/
def numPayloadSession : Session := ⟨.num 1, .undef, 0, ttlMs⟩

theorem evalTemplate_thrown_iff (s : Session) :
    evalTemplate s = .thrown ↔
      propAccessThrows s.ahap = true ∨
        getProp s.ahap "Pattern" = .ok .undef ∨
        getProp s.ahap "Pattern" = .ok .null := by
  obtain ⟨a, m, c, ex⟩ := s
  cases a with
  | undef => simp [evalTemplate, getProp, propAccessThrows]
  | null => simp [evalTemplate, getProp, propAccessThrows]
  | boolean b => simp [evalTemplate, getProp, propAccessThrows]
  | num n => simp [evalTemplate, getProp, propAccessThrows]
  | str t => simp [evalTemplate, getProp, propAccessThrows]
  | arr xs => simp [evalTemplate, getProp, propAccessThrows]
  | obj fs =>
    simp only [evalTemplate, getProp, propAccessThrows]
    cases hv : (List.lookup "Pattern" fs).getD JsVal.undef <;>
      simp [hv, getProp]

/-- A concrete event sequence with no POST aimed at the key `"gone"`:
a sweep, a POST to another key, and a later sweep. -/
def sampleOps : List Op :=
  [.sweep 5, .post 6 "other" samplePayload .undef, .sweep ttlMs]

/-! ### Claims -/

/-- C1 counterexample: a record whose 24-hour TTL has elapsed
(`expires = ttlMs ≤ ttlMs`, the lookup time) but that has not been swept yet
is still returned by the GET handler with HTTP 200; the handler never
compares `expires` against the clock, so the 404 branch is not taken. -/
theorem lookup_returns_expired_record :
    staleSession.expires ≤ ttlMs ∧
    getHaptic [("k", staleSession)] "k" = .found staleSession ∧
    getHaptic [("k", staleSession)] "k" ≠ .notFound :=
  ⟨Nat.le_refl _, rfl, fun h => LookupResult.noConfusion h⟩

/-- C1 (corrected): `GET /api/haptic/:sessionId` returns the 404
`Session not found or expired` response exactly when the key is physically
absent from the map; it performs no expiry check of its own, so an expired
record still present (pending sweep) is returned as a 200, not a 404. -/
theorem lookup_notFound_iff_absent (store : Store) (sid : String) :
    getHaptic store sid = .notFound ↔ mapGet store sid = none :=
  getHaptic_notFound_iff store sid

/-- C2 counterexample: a record whose `expires` equals the sweep time
(`expires = 5 ≤ now = 5`) is NOT removed by `cleanupExpiredSessions`, because
the code deletes only on the strict comparison
`new Date(value.expires).getTime() < now`. -/
theorem sweep_keeps_record_expiring_now :
    edgeSession.expires ≤ 5 ∧
    cleanupExpiredSessions 5 [("k", edgeSession)] = [("k", edgeSession)] :=
  ⟨by decide, rfl⟩

/-- C2 (corrected): the sweep removes exactly the records with
`expires < now` (strictly); every record with `expires ≥ now` — including one
with `expires = now` on the boundary — is kept. -/
theorem sweep_removes_exactly_strictly_expired (now : Nat) (store : Store)
    (e : String × Session) :
    e ∈ cleanupExpiredSessions now store ↔ e ∈ store ∧ ¬ e.2.expires < now :=
  mem_cleanup_iff now store e

/-- C3 counterexample: the POST handler runs `cleanupExpiredSessions()` after
storing, so inserting under key `"k"` removes the already-expired entry under
the different key `"j"` — the create operation does have a side effect on
other keys. -/
theorem insert_sweeps_expired_other_key :
    mapGet [("j", edgeSession)] "j" = some edgeSession ∧
    "j" ≠ "k" ∧
    mapGet (postHaptic 6 "k" samplePayload .undef [("j", edgeSession)]).2 "j" = none :=
  ⟨rfl, by decide, rfl⟩

/-- C3 (corrected): the create operation's effects are the map entry for the
inserted key plus the opportunistic sweep; every entry under a different key
that is unexpired at the call time (`¬ expires < now`) is still present and
unchanged after the call, while expired entries under other keys may be
removed by the sweep. -/
theorem insert_preserves_unexpired_other_keys (now : Nat) (sid j : String)
    (ahap mediaUrl : JsVal) (store : Store) (r : Session)
    (hne : j ≠ sid) (hget : mapGet store j = some r) (hlive : ¬ r.expires < now) :
    mapGet (postHaptic now sid ahap mediaUrl store).2 j = some r := by
  by_cases hc : sid = "" ∨ truthy ahap = false
  · simpa [postHaptic, hc] using hget
  · have h1 : mapGet (mapSet store sid ⟨ahap, mediaUrl, now, now + ttlMs⟩) j = some r := by
      rw [mapGet_mapSet_ne store sid j _ (Ne.symm hne)]
      exact hget
    simpa [postHaptic, hc] using
      mapGet_cleanup_keep now (mapSet store sid ⟨ahap, mediaUrl, now, now + ttlMs⟩) j r h1 hlive

/-- C3 witness: a live record under `"j"` survives an insert under `"k"`. -/
theorem insert_preserves_unexpired_other_keys_witness :
    "j" ≠ "k" ∧ mapGet [("j", staleSession)] "j" = some staleSession ∧
    ¬ staleSession.expires < 5 ∧
    mapGet (postHaptic 5 "k" samplePayload .undef [("j", staleSession)]).2 "j"
      = some staleSession :=
  ⟨by decide, rfl, by decide,
    insert_preserves_unexpired_other_keys 5 "k" "j" samplePayload .undef
      [("j", staleSession)] staleSession (by decide) rfl (by decide)⟩

/-- C4 (confirmed): a valid insert (non-empty key, truthy payload) followed
immediately by a lookup of the same key succeeds and returns the record with
exactly that payload (and the given `mediaUrl`, `created = now`,
`expires = now + 24h`).  The opportunistic sweep inside the POST handler
cannot remove the fresh record, since `now + ttlMs < now` is impossible. -/
theorem insert_then_lookup_returns_payload (now : Nat) (sid : String)
    (payload mediaUrl : JsVal) (store : Store)
    (hsid : sid ≠ "") (hp : truthy payload = true) :
    getHaptic (postHaptic now sid payload mediaUrl store).2 sid =
      .found ⟨payload, mediaUrl, now, now + ttlMs⟩ :=
  lookup_after_post now sid payload mediaUrl store hsid hp

/-- C4 witness: Scenario A of the spec on a concrete store. -/
theorem insert_then_lookup_returns_payload_witness :
    "abc123" ≠ "" ∧ truthy samplePayload = true ∧
    getHaptic (postHaptic 0 "abc123" samplePayload (.str "http://media/x.mp4") []).2 "abc123"
      = .found ⟨samplePayload, .str "http://media/x.mp4", 0, 0 + ttlMs⟩ :=
  ⟨by decide, rfl,
    insert_then_lookup_returns_payload 0 "abc123" samplePayload
      (.str "http://media/x.mp4") [] (by decide) rfl⟩

/-- C5 (confirmed): `insert(K, A)` then `insert(K, B)` is last-write-wins —
`Map.set` replaces the entry in place, so any later lookup (in particular one
before expiry) returns the record carrying payload `B`, with `B`'s timestamps;
the record carrying `A` is gone.  No merge or version check exists. -/
theorem overwrite_last_write_wins (t0 t1 : Nat) (sid : String)
    (a b m0 m1 : JsVal) (store : Store)
    (hsid : sid ≠ "") (_ha : truthy a = true) (hb : truthy b = true) :
    getHaptic (postHaptic t1 sid b m1 (postHaptic t0 sid a m0 store).2).2 sid =
      .found ⟨b, m1, t1, t1 + ttlMs⟩ :=
  lookup_after_post t1 sid b m1 (postHaptic t0 sid a m0 store).2 hsid hb

/-- C5 witness: two inserts under `"k"`, lookup returns the second payload. -/
theorem overwrite_last_write_wins_witness :
    "k" ≠ "" ∧ truthy samplePayload = true ∧ truthy otherPayload = true ∧
    getHaptic (postHaptic 1 "k" otherPayload .undef
        (postHaptic 0 "k" samplePayload .undef []).2).2 "k"
      = .found ⟨otherPayload, .undef, 1, 1 + ttlMs⟩ :=
  ⟨by decide, rfl, rfl,
    overwrite_last_write_wins 0 1 "k" samplePayload otherPayload .undef .undef []
      (by decide) rfl rfl⟩

/-- C6 (confirmed): a successful insert at time `now` stores a record with
`created = now` and `expires = created + ttlMs` (`ttlMs = 86400000` ms =
86400 s = 24 h) exactly; and the sweep never alters a surviving record's
fields — every entry present after a sweep is literally an entry of the store
before it (the sweep only deletes whole entries).  The lookup handlers are
read-only in the source (they never write `hapticSessions`), which the
embedding reflects by making them pure functions of the store. -/
theorem insert_timestamps_and_sweep_preserves_fields (now : Nat) (sid : String)
    (payload mediaUrl : JsVal) (store : Store)
    (hsid : sid ≠ "") (hp : truthy payload = true) :
    (mapGet (postHaptic now sid payload mediaUrl store).2 sid =
        some ⟨payload, mediaUrl, now, now + ttlMs⟩ ∧
      (⟨payload, mediaUrl, now, now + ttlMs⟩ : Session).expires =
        (⟨payload, mediaUrl, now, now + ttlMs⟩ : Session).created + ttlMs) ∧
    ∀ t : Nat, ∀ st : Store, ∀ e : String × Session,
      e ∈ cleanupExpiredSessions t st → e ∈ st := by
  refine ⟨⟨?_, rfl⟩, fun t st e h => cleanup_subset t st e h⟩
  have hcond : ¬ (sid = "" ∨ truthy payload = false) := by simp [hsid, hp]
  have h1 := mapGet_mapSet_self store sid ⟨payload, mediaUrl, now, now + ttlMs⟩
  have h2 := mapGet_cleanup_keep now
    (mapSet store sid ⟨payload, mediaUrl, now, now + ttlMs⟩) sid
    ⟨payload, mediaUrl, now, now + ttlMs⟩ h1 (by show ¬ now + ttlMs < now; omega)
  simpa [postHaptic, hcond] using h2

/-- C6 witness: concrete insert at time 7. -/
theorem insert_timestamps_witness :
    "k" ≠ "" ∧ truthy samplePayload = true ∧
    ((mapGet (postHaptic 7 "k" samplePayload .undef []).2 "k" =
        some ⟨samplePayload, .undef, 7, 7 + ttlMs⟩ ∧
      (⟨samplePayload, .undef, 7, 7 + ttlMs⟩ : Session).expires =
        (⟨samplePayload, .undef, 7, 7 + ttlMs⟩ : Session).created + ttlMs) ∧
    ∀ t : Nat, ∀ st : Store, ∀ e : String × Session,
      e ∈ cleanupExpiredSessions t st → e ∈ st) :=
  ⟨by decide, rfl,
    insert_timestamps_and_sweep_preserves_fields 7 "k" samplePayload .undef []
      (by decide) rfl⟩

/-- C7 (confirmed): a POST with an empty session key or an absent (`undefined`)
`ahap` payload takes the `if (!sessionId || !ahap)` branch: it answers
HTTP 400 `Missing required data` and returns before `set` and before the
sweep, so the store — contents and hence count — is exactly unchanged. -/
theorem invalid_insert_rejected_store_unchanged (now : Nat) (sid : String)
    (ahap mediaUrl : JsVal) (store : Store)
    (h : sid = "" ∨ ahap = .undef) :
    postHaptic now sid ahap mediaUrl store = (.missingData, store) := by
  have hc : sid = "" ∨ truthy ahap = false := by
    rcases h with h | h
    · exact Or.inl h
    · exact Or.inr (by rw [h]; rfl)
  unfold postHaptic
  rw [if_pos hc]

/-- C7 witness: Scenario E — an empty-key insert against a non-empty store
leaves the store (and its single entry) untouched. -/
theorem invalid_insert_rejected_witness :
    ((("" : String) = "") ∨ samplePayload = JsVal.undef) ∧
    postHaptic 0 "" samplePayload .undef [("j", staleSession)]
      = (.missingData, [("j", staleSession)]) :=
  ⟨Or.inl rfl,
    invalid_insert_rejected_store_unchanged 0 "" samplePayload .undef
      [("j", staleSession)] (Or.inl rfl)⟩

/-- C8 (confirmed): once a lookup of key K answers 404 (the key is absent,
for example because the sweep removed the expired record), every later lookup
also answers 404 as long as no intervening POST targets K: further sweeps only
delete entries, and a valid POST for a different key only writes its own entry
and sweeps.  Expiry never reverses. -/
theorem notFound_persists_without_insert (store : Store) (sid : String)
    (ops : List Op)
    (habs : getHaptic store sid = .notFound)
    (hni : ∀ op ∈ ops, insertsTo op sid = false) :
    getHaptic (applyOps store ops) sid = .notFound := by
  rw [getHaptic_notFound_iff] at habs ⊢
  exact mapGet_applyOps_none sid ops store habs hni

/-- C8 witness: the key `"gone"` stays 404 across a sweep, a POST to another
key and another sweep. -/
theorem notFound_persists_without_insert_witness :
    getHaptic [("j", edgeSession)] "gone" = .notFound ∧
    (∀ op ∈ sampleOps, insertsTo op "gone" = false) ∧
    getHaptic (applyOps [("j", edgeSession)] sampleOps) "gone" = .notFound :=
  ⟨rfl, by decide,
    notFound_persists_without_insert [("j", edgeSession)] "gone" sampleOps rfl
      (by decide)⟩

/-- C9 (confirmed): the sweep is idempotent — running
`cleanupExpiredSessions` twice at the same instant with no intervening insert
equals running it once; after the first pass every surviving entry has
`expires ≥ now`, so the second pass deletes nothing. -/
theorem sweep_idempotent (now : Nat) (store : Store) :
    cleanupExpiredSessions now (cleanupExpiredSessions now store) =
      cleanupExpiredSessions now store := by
  induction store with
  | nil => rfl
  | cons e rest ih =>
    by_cases h : e.2.expires < now <;>
      simp [cleanupExpiredSessions, List.filter_cons, h] at ih ⊢

/-- C10 counterexample: a stored record whose payload's `Pattern` member is
the string `"ab"` — not an array — renders the share page successfully:
JavaScript strings have a `length` property, so
`session.ahap.Pattern.length` evaluates to `2` and the HTML is produced with
no error. -/
theorem render_succeeds_without_pattern_array :
    mapGet [("x", strPatternSession)] "x" = some strPatternSession ∧
    getProp strPatternSession.ahap "Pattern" = .ok (.str "ab") ∧
    jsIsArray (.str "ab") = false ∧
    renderShare [("x", strPatternSession)] "x" = .page (.num 2) 0 ∧
    renderShare [("x", strPatternSession)] "x" ≠ .thrown :=
  ⟨rfl, rfl, rfl, rfl, fun h => RenderResult.noConfusion h⟩

/-- C10 (corrected): for a stored record, rendering the share page throws (a
`TypeError` instead of the HTML document) exactly when the unguarded
`session.ahap.Pattern.length` hits an `undefined`/`null` base: either the
payload itself is nullish, or its `Pattern` property evaluates to `undefined`
(absent field, or a primitive payload) or `null`.  Any other `Pattern` value —
string, number, boolean, object or array — renders the page, with the Events
field showing its `length` property (`undefined` when it has none). -/
theorem render_thrown_iff_pattern_nullish (store : Store) (sid : String)
    (s : Session) (hget : mapGet store sid = some s) :
    (renderShare store sid = .thrown ↔
      propAccessThrows s.ahap = true ∨
        getProp s.ahap "Pattern" = .ok .undef ∨
        getProp s.ahap "Pattern" = .ok .null) := by
  have hbody : renderShare store sid = evalTemplate s := by
    unfold renderShare
    rw [hget]
  rw [hbody]
  exact evalTemplate_thrown_iff s

/-- C10 witness: a stored record whose payload is the truthy number `1`:
`ahap.Pattern` is `undefined`, so the render throws, matching the
characterization. -/
theorem render_thrown_iff_pattern_nullish_witness :
    mapGet [("w", numPayloadSession)] "w" = some numPayloadSession ∧
    (renderShare [("w", numPayloadSession)] "w" = .thrown ↔
      propAccessThrows numPayloadSession.ahap = true ∨
        getProp numPayloadSession.ahap "Pattern" = .ok .undef ∨
        getProp numPayloadSession.ahap "Pattern" = .ok .null) :=
  ⟨rfl,
    render_thrown_iff_pattern_nullish [("w", numPayloadSession)] "w"
      numPayloadSession rfl⟩

end TactylServer
